import Mathlib

/-!
Shallow embedding of the data-query core of the Bangladesh police crime
dashboard (`src/app.py`): the row data model, the unit/year filter used by
the `update_summary_cards` and `render_tab_content` callbacks, the summary
metrics (total, per-month mean, peak category via pandas `idxmax`, distinct
unit count), and the groupby-based chart aggregations.
-/

/-- One row of the loaded dataframe after preprocessing: `Unit`, `Year`,
`Month` (month name), derived `Month_Num`, the sixteen category count
columns (as an association list), and `Total_Cases`. -/
structure Row where
  unit : String
  year : Int
  month : String
  monthNum : Nat
  cats : List (String × Nat)
  totalCases : Nat
deriving DecidableEq

/-- Value of a category column in a row (`row[c]`); absent columns read 0. -/
def Row.cat (r : Row) (c : String) : Nat :=
  (r.cats.lookup c).getD 0

/-- The canonical category column list `crime_columns` from `app.py`. -/
def crime_columns : List String :=
  ["Dacoity", "Robbery", "Murder", "Speedy_Trial", "Riot",
   "Woman_Child_Repression", "Kidnapping", "Police_Assault",
   "Burglary", "Theft", "Other_Cases", "Arms_Act", "Explosive_Act",
   "Narcotics", "Smuggling", "Recovery_Cases"]

/-- The row filter shared by `update_summary_cards` and `render_tab_content`:
`df[(df.Unit.isin(selected_units)) & (df.Year >= year_range[0]) & (df.Year <= year_range[1])]`. -/
def filterView (df : List Row) (units : List String) (lo hi : Int) : List Row :=
  df.filter (fun r => units.contains r.unit && decide (lo ≤ r.year) && decide (r.year ≤ hi))

/-- Per-category column sum over a view: `filtered_df[c].sum()`. -/
def colSum (view : List Row) (c : String) : Nat :=
  (view.map (fun r => r.cat c)).sum

/-- The scan of pandas `Series.idxmax`: walk the remaining labels keeping the
current best, replacing it only on a strictly larger value, so the first
label attaining the maximum wins. -/
def idxmaxAux (f : String → Nat) : List String → String → String
  | [], best => best
  | c :: rest, best => idxmaxAux f rest (if f best < f c then c else best)

/-- `filtered_df[cs].sum().idxmax()`: first label of `cs` whose column sum is
maximal; pandas raises on an empty label list, modelled as `none`. -/
def peakCategory (view : List Row) : List String → Option String
  | [] => none
  | c :: rest => some (idxmaxAux (colSum view) rest c)

/-- A small concrete dataframe used to instantiate the theorems. -/
def sampleDf : List Row :=
  [{ unit := "DMP", year := 2021, month := "January", monthNum := 1,
     cats := [("Murder", 5), ("Theft", 3)], totalCases := 8 },
   { unit := "CMP", year := 2021, month := "January", monthNum := 1,
     cats := [("Murder", 2), ("Theft", 7)], totalCases := 9 },
   { unit := "DMP", year := 2022, month := "March", monthNum := 3,
     cats := [("Murder", 1), ("Theft", 1)], totalCases := 2 },
   { unit := "RMP", year := 2023, month := "July", monthNum := 7,
     cats := [("Murder", 4), ("Theft", 0)], totalCases := 4 }]

/-- The result of the `idxmax` scan splits its input: every label strictly
before the result has a strictly smaller value, every label after it a value
less than or equal. -/
theorem idxmaxAux_split (f : String → Nat) :
    ∀ (cs : List String) (best : String), ∃ l1 l2,
      best :: cs = l1 ++ idxmaxAux f cs best :: l2 ∧
      (∀ c ∈ l1, f c < f (idxmaxAux f cs best)) ∧
      (∀ c ∈ l2, f c ≤ f (idxmaxAux f cs best)) := by
  intro cs
  induction cs with
  | nil =>
    intro best
    exact ⟨[], [], rfl, by simp, by simp⟩
  | cons c rest ih =>
    intro best
    by_cases h : f best < f c
    · simp only [idxmaxAux, if_pos h]
      obtain ⟨l1, l2, heq, h1, h2⟩ := ih c
      refine ⟨best :: l1, l2, ?_, ?_, h2⟩
      · rw [List.cons_append, ← heq]
      · intro x hx
        rcases List.mem_cons.mp hx with rfl | hx
        · have hc : f c ≤ f (idxmaxAux f rest c) := by
            have hmem : c ∈ l1 ++ idxmaxAux f rest c :: l2 := by
              rw [← heq]; exact List.mem_cons_self c rest
            rcases List.mem_append.mp hmem with h' | h'
            · exact le_of_lt (h1 _ h')
            · rcases List.mem_cons.mp h' with h'' | h''
              · exact le_of_eq (congrArg f h'')
              · exact h2 _ h''
          exact lt_of_lt_of_le h hc
        · exact h1 _ hx
    · simp only [idxmaxAux, if_neg h]
      obtain ⟨l1, l2, heq, h1, h2⟩ := ih best
      cases l1 with
      | nil =>
        have hbest : best = idxmaxAux f rest best := by
          have := heq
          simp only [List.nil_append] at this
          exact (List.cons.injEq _ _ _ _ ▸ this).1
        have hrest : rest = l2 := by
          simp only [List.nil_append] at heq
          exact (List.cons.injEq _ _ _ _ ▸ heq).2
        refine ⟨[], c :: rest, ?_, by simp, ?_⟩
        · simp [← hbest]
        · intro x hx
          rcases List.mem_cons.mp hx with rfl | hx
          · exact le_trans (le_of_not_lt h) (le_of_eq (congrArg f hbest))
          · exact h2 _ (hrest ▸ hx)
      | cons b l1t =>
        have hb : best = b := by
          have := heq
          simp only [List.cons_append] at this
          exact (List.cons.injEq _ _ _ _ ▸ this).1
        have hrest : rest = l1t ++ idxmaxAux f rest best :: l2 := by
          have := heq
          simp only [List.cons_append] at this
          exact (List.cons.injEq _ _ _ _ ▸ this).2
        have hbestlt : f best < f (idxmaxAux f rest best) := by
          have : best ∈ b :: l1t := by rw [← hb]; exact List.mem_cons_self _ _
          exact h1 _ this
        refine ⟨best :: c :: l1t, l2, ?_, ?_, h2⟩
        · simp only [List.cons_append]
          rw [← hrest]
        · intro x hx
          rcases List.mem_cons.mp hx with rfl | hx
          · exact hbestlt
          · rcases List.mem_cons.mp hx with rfl | hx
            · exact lt_of_le_of_lt (le_of_not_lt h) hbestlt
            · exact h1 _ (List.mem_cons_of_mem _ hx)

/-- Claim C1: for every dataset, set of units and year range, a row is in the
filter result iff it is a dataset row whose unit is selected and whose year
lies in the inclusive range; an empty unit selection yields an empty result,
and an inverted range yields an empty result. -/
theorem C1_filter_characterization (df : List Row) (units : List String) (lo hi : Int) :
    (∀ r, r ∈ filterView df units lo hi ↔
        r ∈ df ∧ r.unit ∈ units ∧ lo ≤ r.year ∧ r.year ≤ hi) ∧
    (units = [] → filterView df units lo hi = []) ∧
    (hi < lo → filterView df units lo hi = []) := by
  have hmem : ∀ r, r ∈ filterView df units lo hi ↔
      r ∈ df ∧ r.unit ∈ units ∧ lo ≤ r.year ∧ r.year ≤ hi := by
    intro r
    simp [filterView, List.mem_filter, and_assoc]
  refine ⟨hmem, ?_, ?_⟩
  · intro hu
    rw [List.eq_nil_iff_forall_not_mem]
    intro r hr
    rcases (hmem r).mp hr with ⟨_, hru, _⟩
    rw [hu] at hru
    exact (List.not_mem_nil _ hru)
  · intro hlt
    rw [List.eq_nil_iff_forall_not_mem]
    intro r hr
    rcases (hmem r).mp hr with ⟨_, _, h1, h2⟩
    exact absurd (le_trans h1 h2) (not_le.mpr hlt)

/-- Witness for C1 at a concrete dataset: the empty unit selection and the
inverted year range both give the empty view. -/
theorem C1_filter_characterization_witness :
    filterView sampleDf [] 2021 2024 = [] ∧ filterView sampleDf ["DMP"] 2024 2021 = [] :=
  ⟨(C1_filter_characterization sampleDf [] 2021 2024).2.1 rfl,
   (C1_filter_characterization sampleDf ["DMP"] 2024 2021).2.2 (by decide)⟩

/-- Claim C2: on a non-empty view, for a non-empty list of supplied categories
(listed in canonical order), the peak category is a supplied category, its
column sum dominates every supplied category, and any distinct tied category
appears after it in the canonical category order. -/
theorem C2_peak_category_argmax (df : List Row) (units : List String) (lo hi : Int)
    (cs : List String) (hview : filterView df units lo hi ≠ [])
    (hcs : cs ≠ []) (hsub : cs.Sublist crime_columns) :
    ∃ p, peakCategory (filterView df units lo hi) cs = some p ∧ p ∈ cs ∧
      (∀ c ∈ cs, colSum (filterView df units lo hi) c ≤ colSum (filterView df units lo hi) p) ∧
      (∀ c ∈ cs, colSum (filterView df units lo hi) c = colSum (filterView df units lo hi) p →
        c ≠ p → List.Sublist [p, c] crime_columns) := by
  cases cs with
  | nil => exact absurd rfl hcs
  | cons c0 rest =>
    set v := filterView df units lo hi with hv
    obtain ⟨l1, l2, heq, h1, h2⟩ := idxmaxAux_split (colSum v) rest c0
    set p := idxmaxAux (colSum v) rest c0 with hp
    have hpmem : p ∈ c0 :: rest := by
      rw [heq]
      exact List.mem_append.mpr (Or.inr (List.mem_cons_self _ _))
    refine ⟨p, rfl, hpmem, ?_, ?_⟩
    · intro c hc
      rw [heq] at hc
      rcases List.mem_append.mp hc with h' | h'
      · exact le_of_lt (h1 _ h')
      · rcases List.mem_cons.mp h' with rfl | h''
        · exact le_refl _
        · exact h2 _ h''
    · intro c hc htie hne
      have hcl2 : c ∈ l2 := by
        rw [heq] at hc
        rcases List.mem_append.mp hc with h' | h'
        · exact absurd htie (ne_of_lt (h1 _ h'))
        · rcases List.mem_cons.mp h' with h'' | h''
          · exact absurd h'' hne
          · exact h''
      have hsub1 : List.Sublist [p, c] (p :: l2) :=
        List.Sublist.cons₂ p (List.singleton_sublist.mpr hcl2)
      have hsub2 : List.Sublist (p :: l2) (c0 :: rest) := by
        rw [heq]
        exact List.sublist_append_right l1 (p :: l2)
      exact (hsub1.trans hsub2).trans hsub

/-- Witness for C2: on the sample view restricted to DMP rows, the peak over
the categories Murder and Theft is computed, lies among them, and dominates
both. -/
theorem C2_peak_category_argmax_witness :
    ∃ p, peakCategory (filterView sampleDf ["DMP"] 2021 2023) ["Murder", "Theft"] = some p ∧
      p ∈ ["Murder", "Theft"] ∧
      (∀ c ∈ ["Murder", "Theft"],
        colSum (filterView sampleDf ["DMP"] 2021 2023) c ≤
          colSum (filterView sampleDf ["DMP"] 2021 2023) p) ∧
      (∀ c ∈ ["Murder", "Theft"],
        colSum (filterView sampleDf ["DMP"] 2021 2023) c =
          colSum (filterView sampleDf ["DMP"] 2021 2023) p →
        c ≠ p → List.Sublist [p, c] crime_columns) :=
  C2_peak_category_argmax sampleDf ["DMP"] 2021 2023 ["Murder", "Theft"]
    (by decide) (by decide) (by decide)

/-! ### Grouping machinery (pandas `groupby` with sorted group keys) -/

/-- Lexicographic comparison of char lists by code point, byte-wise `≤`. -/
def charListLe : List Char → List Char → Bool
  | [], _ => true
  | _ :: _, [] => false
  | a :: as, b :: bs =>
    if a.toNat < b.toNat then true
    else if b.toNat < a.toNat then false
    else charListLe as bs

/-- String comparison used by pandas when sorting string group keys. -/
def strLe (a b : String) : Bool := charListLe a.data b.data

/-- `strLe` as a proposition. -/
def strLeP (a b : String) : Prop := strLe a b = true

instance : DecidableRel strLeP :=
  fun a b => inferInstanceAs (Decidable (strLe a b = true))

/-- Order on normalized dates, encoded as (year, month-number) pairs. -/
def dateLe (a b : Int × Nat) : Prop :=
  a.1 < b.1 ∨ (a.1 = b.1 ∧ a.2 ≤ b.2)

instance : DecidableRel dateLe :=
  fun a b => inferInstanceAs (Decidable (_ ∨ _))

instance : IsTotal (Int × Nat) dateLe :=
  ⟨by rintro ⟨a1, a2⟩ ⟨b1, b2⟩; simp only [dateLe]; omega⟩

instance : IsTrans (Int × Nat) dateLe :=
  ⟨by rintro ⟨a1, a2⟩ ⟨b1, b2⟩ ⟨c1, c2⟩; simp only [dateLe]; omega⟩

/-- Order on (year, month-name) group keys, as pandas sorts the
`groupby(['Year', 'Month'])` index. -/
def ymLe (a b : Int × String) : Prop :=
  a.1 < b.1 ∨ (a.1 = b.1 ∧ strLe a.2 b.2 = true)

instance : DecidableRel ymLe :=
  fun a b => inferInstanceAs (Decidable (_ ∨ _))

/-- Descending comparison on the summed value, for `sort_values(ascending=False)`. -/
def descBySnd (a b : String × Nat) : Prop := b.2 ≤ a.2

instance : DecidableRel descBySnd :=
  fun a b => inferInstanceAs (Decidable (_ ≤ _))

instance : IsTotal (String × Nat) descBySnd :=
  ⟨fun a b => (Nat.le_total b.2 a.2).imp id id⟩

instance : IsTrans (String × Nat) descBySnd :=
  ⟨fun _ _ _ h1 h2 => le_trans h2 h1⟩

/-- The sorted list of distinct group keys of a view, as produced by a pandas
`groupby` (keys sorted ascending). -/
def keyList {K : Type} [DecidableEq K] (le : K → K → Prop) [DecidableRel le]
    (view : List Row) (key : Row → K) : List K :=
  List.insertionSort le ((view.map key).dedup)

/-- `view.groupby(key)[val].sum()`: each distinct key paired with the sum of
`val` over the rows of its group. -/
def groupSums {K : Type} [DecidableEq K] (le : K → K → Prop) [DecidableRel le]
    (view : List Row) (key : Row → K) (val : Row → Nat) : List (K × Nat) :=
  (keyList le view key).map
    (fun k => (k, ((view.filter (fun r => decide (key r = k))).map val).sum))

/-- `view.groupby(key)[val].mean()`: each distinct key paired with the mean of
`val` over the rows of its group. -/
def groupMeans {K : Type} [DecidableEq K] (le : K → K → Prop) [DecidableRel le]
    (view : List Row) (key : Row → K) (val : Row → Nat) : List (K × ℚ) :=
  (keyList le view key).map
    (fun k => (k, (((view.filter (fun r => decide (key r = k))).map val).sum : ℚ) /
        ((view.filter (fun r => decide (key r = k))).length : ℚ)))

/-! ### Summary metrics (`update_summary_cards`) -/

/-- `filtered_df['Total_Cases'].sum()`. -/
def totalCasesSum (view : List Row) : Nat :=
  (view.map (fun r => r.totalCases)).sum

/-- The (year, month-name) grouping key of `groupby(['Year', 'Month'])`. -/
def ymKey (r : Row) : Int × String := (r.year, r.month)

/-- `filtered_df.groupby(['Year', 'Month'])['Total_Cases'].sum()`. -/
def monthlyGroupSums (view : List Row) : List ((Int × String) × Nat) :=
  groupSums ymLe view ymKey (fun r => r.totalCases)

/-- `filtered_df.groupby(['Year', 'Month'])['Total_Cases'].sum().mean()`; the
mean of an empty series is NaN, modelled as `none`. -/
def avgMonthly (view : List Row) : Option ℚ :=
  let g := monthlyGroupSums view
  if g.isEmpty then none
  else some (((((g.map (fun p => p.2)).sum : Nat) : ℚ)) / ((g.length : Nat) : ℚ))

/-- `len(filtered_df['Unit'].unique())`. -/
def distinctUnits (view : List Row) : Nat :=
  ((view.map (fun r => r.unit)).dedup).length

/-- Digit grouping of a reversed digit string: a comma after every third
digit, as in Python's `,` format specifier. -/
def commaRevAux : List Char → Nat → List Char
  | [], _ => []
  | c :: cs, k =>
    if k = 2 then
      match cs with
      | [] => [c]
      | _ :: _ => c :: ',' :: commaRevAux cs 0
    else c :: commaRevAux cs (k + 1)

/-- Python `f"{n:,.0f}"` on a non-negative integer value: decimal digits with
thousands separators. -/
def fmtCommaNat (n : Nat) : String :=
  ⟨(commaRevAux (toString n).data.reverse 0).reverse⟩

/-- Round-half-to-even, the rounding of Python's `.0f` float formatting. -/
def roundHalfEven (q : ℚ) : Int :=
  let n := ⌊q⌋
  let r := q - (n : ℚ)
  if r < 1 / 2 then n
  else if 1 / 2 < r then n + 1
  else if n % 2 = 0 then n else n + 1

/-- Python `f"{x:,.0f}"` on the monthly mean: NaN prints as `"nan"`, a number
rounds half-to-even and gets thousands separators. -/
def fmtAvg : Option ℚ → String
  | none => "nan"
  | some q => fmtCommaNat (roundHalfEven q).toNat

/-- The `update_summary_cards` callback: filter, then render the four summary
card strings (total cases, average monthly, peak crime, distinct units). -/
def update_summary_cards (df : List Row) (selected_units : List String)
    (lo hi : Int) : String × String × String × String :=
  let filtered_df := filterView df selected_units lo hi
  (fmtCommaNat (totalCasesSum filtered_df),
   fmtAvg (avgMonthly filtered_df),
   (peakCategory filtered_df crime_columns).getD "",
   toString (distinctUnits filtered_df))

/-! ### Chart aggregations -/

/-- The normalized-date grouping key (`Date` is the first of the month, so it
is determined by year and month number). -/
def dateKey (r : Row) : Int × Nat := (r.year, r.monthNum)

/-- `create_monthly_trend_chart` data:
`filtered_df.groupby('Date')['Total_Cases'].sum()`. -/
def monthlySeries (view : List Row) : List ((Int × Nat) × Nat) :=
  groupSums dateLe view dateKey (fun r => r.totalCases)

/-- `create_top_units_chart` data:
`filtered_df.groupby('Unit')['Total_Cases'].sum().sort_values(ascending=False).head(10)`. -/
def unitTotals (view : List Row) : List (String × Nat) :=
  (List.insertionSort descBySnd
    (groupSums strLeP view (fun r => r.unit) (fun r => r.totalCases))).take 10

/-- `create_seasonal_patterns_chart` data:
`filtered_df.groupby('Month_Num')['Total_Cases'].mean()`. -/
def seasonalAverage (view : List Row) : List (Nat × ℚ) :=
  groupMeans (· ≤ ·) view (fun r => r.monthNum) (fun r => r.totalCases)

/-- The category list the pie chart is built over, with the empty-selection
fallback of `create_crime_pie_chart`. -/
def pieSelectedCrimes (selected_crimes : List String) : List String :=
  if selected_crimes.isEmpty then crime_columns.take 5 else selected_crimes

/-- `create_crime_pie_chart` data: one (category, column-sum) slice per
selected category. -/
def create_crime_pie_data (filtered_df : List Row) (selected_crimes : List String) :
    List (String × Nat) :=
  (pieSelectedCrimes selected_crimes).map (fun c => (c, colSum filtered_df c))

/-- The category list the trends chart is built over, with the empty-selection
fallback of `create_crime_trends_chart`. -/
def trendsSelectedCrimes (selected_crimes : List String) : List String :=
  if selected_crimes.isEmpty then ["Murder", "Robbery", "Theft"] else selected_crimes

/-- `create_crime_trends_chart` data: one trace per selected category, each a
date-grouped sum series of that category column. -/
def create_crime_trends_series (filtered_df : List Row) (selected_crimes : List String) :
    List (String × List ((Int × Nat) × Nat)) :=
  (trendsSelectedCrimes selected_crimes).map
    (fun c => (c, groupSums dateLe filtered_df dateKey (fun r => r.cat c)))

/-- The raw-data tab preview: `filtered_df.head(50)`. -/
def previewRows (df : List Row) (units : List String) (lo hi : Int) : List Row :=
  (filterView df units lo hi).take 50

/-! ### Helper lemmas -/

/-- An empty unit selection filters away every row. -/
theorem filterView_nil_units (df : List Row) (lo hi : Int) :
    filterView df [] lo hi = [] := by
  rw [filterView, List.eq_nil_iff_forall_not_mem]
  intro r hr
  simp [List.mem_filter] at hr

/-- The key list of a grouping has no duplicate keys. -/
theorem keyList_nodup {K : Type} [DecidableEq K] (le : K → K → Prop) [DecidableRel le]
    (view : List Row) (key : Row → K) : (keyList le view key).Nodup :=
  (List.perm_insertionSort le _).nodup_iff.mpr (List.nodup_dedup _)

/-- A key appears in the key list iff some row of the view carries it. -/
theorem keyList_mem {K : Type} [DecidableEq K] (le : K → K → Prop) [DecidableRel le]
    (view : List Row) (key : Row → K) (k : K) :
    k ∈ keyList le view key ↔ ∃ r ∈ view, key r = k := by
  rw [keyList, List.mem_insertionSort, List.mem_dedup, List.mem_map]

/-- The key list is sorted by the supplied total, transitive order. -/
theorem keyList_sorted {K : Type} [DecidableEq K] (le : K → K → Prop) [DecidableRel le]
    [IsTotal K le] [IsTrans K le] (view : List Row) (key : Row → K) :
    (keyList le view key).Pairwise le :=
  List.sorted_insertionSort le _

/-- The key list is a permutation of the deduplicated mapped keys. -/
theorem keyList_perm {K : Type} [DecidableEq K] (le : K → K → Prop) [DecidableRel le]
    (view : List Row) (key : Row → K) :
    (keyList le view key).Perm ((view.map key).dedup) :=
  List.perm_insertionSort le _

/-- The first components of a grouped-sum table are exactly its key list. -/
theorem groupSums_map_fst {K : Type} [DecidableEq K] (le : K → K → Prop) [DecidableRel le]
    (view : List Row) (key : Row → K) (val : Row → Nat) :
    (groupSums le view key val).map Prod.fst = keyList le view key := by
  rw [groupSums, List.map_map]
  exact List.map_id _

/-- The first components of a grouped-mean table are exactly its key list. -/
theorem groupMeans_map_fst {K : Type} [DecidableEq K] (le : K → K → Prop) [DecidableRel le]
    (view : List Row) (key : Row → K) (val : Row → Nat) :
    (groupMeans le view key val).map Prod.fst = keyList le view key := by
  rw [groupMeans, List.map_map]
  exact List.map_id _

/-- Claim C9: an empty unit selection yields a zero-row view, and the summary
cards render total cases `"0"`, distinct units `"0"`, and the deterministic
peak-category fallback `"Dacoity"` (the first canonical category). -/
theorem C9_empty_units_summary (df : List Row) (lo hi : Int) :
    filterView df [] lo hi = [] ∧
    update_summary_cards df [] lo hi = ("0", "nan", "Dacoity", "0") := by
  have hf : filterView df [] lo hi = [] := filterView_nil_units df lo hi
  refine ⟨hf, ?_⟩
  unfold update_summary_cards
  rw [hf]
  decide

/-- Claim C3 evaluation: on an empty filtered view the summary callback does
render the formatted NaN string `"nan"` for the monthly mean (second card),
so the rendered output does contain a NaN marker. -/
theorem C3_empty_view_avg_renders_nan :
    update_summary_cards sampleDf [] 2021 2024 = ("0", "nan", "Dacoity", "0") ∧
    (update_summary_cards sampleDf [] 2021 2024).2.1 = "nan" := by
  decide

/-- Claim C8: with an empty category selection the pie chart is built over
exactly the first five canonical categories, and the trends chart over
exactly the fixed triple Murder, Robbery, Theft. -/
theorem C8_default_category_fallbacks (filtered_df : List Row) :
    (create_crime_pie_data filtered_df []).map Prod.fst =
      ["Dacoity", "Robbery", "Murder", "Speedy_Trial", "Riot"] ∧
    (create_crime_pie_data filtered_df []).map Prod.fst = crime_columns.take 5 ∧
    (create_crime_trends_series filtered_df []).map Prod.fst =
      ["Murder", "Robbery", "Theft"] := by
  refine ⟨?_, ?_, ?_⟩ <;>
    simp [create_crime_pie_data, create_crime_trends_series,
      pieSelectedCrimes, trendsSelectedCrimes, crime_columns]

/-- Claim C10: the filtered view is a subsequence of the dataset (original
order, no duplication: each dataset row occurrence is kept exactly once iff
it matches), and the 50-row preview is an initial segment of the view. -/
theorem C10_view_subsequence_and_preview (df : List Row) (units : List String)
    (lo hi : Int) :
    (filterView df units lo hi).Sublist df ∧
    (∀ r : Row, (filterView df units lo hi).count r =
      if r.unit ∈ units ∧ lo ≤ r.year ∧ r.year ≤ hi then df.count r else 0) ∧
    (∃ rest, previewRows df units lo hi ++ rest = filterView df units lo hi) ∧
    (previewRows df units lo hi).length ≤ 50 := by
  refine ⟨List.filter_sublist df, ?_, ⟨(filterView df units lo hi).drop 50,
    List.take_append_drop 50 _⟩, ?_⟩
  · intro r
    by_cases h : r.unit ∈ units ∧ lo ≤ r.year ∧ r.year ≤ hi
    · rw [if_pos h, filterView]
      exact List.count_filter (by simp [h.1, h.2.1, h.2.2])
    · rw [if_neg h]
      rw [List.count_eq_zero]
      intro hmem
      rw [filterView, List.mem_filter] at hmem
      simp only [Bool.and_eq_true, decide_eq_true_eq] at hmem
      exact h ⟨by simpa using hmem.2.1.1, hmem.2.1.2, hmem.2.2⟩
  · rw [previewRows]
    exact List.length_take_le 50 (filterView df units lo hi)

/-- Claim C6: the top-units table is sorted descending by total and has at
most 10 entries. -/
theorem C6_unit_totals_sorted_top10 (df : List Row) (units : List String) (lo hi : Int) :
    (unitTotals (filterView df units lo hi)).Pairwise
      (fun a b : String × Nat => b.2 ≤ a.2) ∧
    (unitTotals (filterView df units lo hi)).length ≤ 10 := by
  constructor
  · have hs : (List.insertionSort descBySnd
        (groupSums strLeP (filterView df units lo hi)
          (fun r => r.unit) (fun r => r.totalCases))).Pairwise descBySnd :=
      List.sorted_insertionSort descBySnd _
    exact List.Pairwise.sublist (List.take_sublist 10 _) hs
  · exact List.length_take_le 10 _

/-- Claim C7: the monthly trend series has one entry per distinct normalized
date of the view, entries are in strictly ascending date order, and each
entry carries the sum of total cases on its date. -/
theorem C7_monthly_series_by_date (df : List Row) (units : List String) (lo hi : Int) :
    ((monthlySeries (filterView df units lo hi)).map Prod.fst).Nodup ∧
    (∀ k, k ∈ (monthlySeries (filterView df units lo hi)).map Prod.fst ↔
        ∃ r ∈ filterView df units lo hi, dateKey r = k) ∧
    ((monthlySeries (filterView df units lo hi)).map Prod.fst).Pairwise
      (fun a b : Int × Nat => a.1 < b.1 ∨ (a.1 = b.1 ∧ a.2 < b.2)) ∧
    (∀ p ∈ monthlySeries (filterView df units lo hi),
      p.2 = (((filterView df units lo hi).filter
          (fun r => decide (dateKey r = p.1))).map (fun r => r.totalCases)).sum) := by
  refine ⟨?_, ?_, ?_, ?_⟩
  · rw [monthlySeries, groupSums_map_fst]
    exact keyList_nodup dateLe _ dateKey
  · intro k
    rw [monthlySeries, groupSums_map_fst]
    exact keyList_mem dateLe _ dateKey k
  · rw [monthlySeries, groupSums_map_fst]
    have hsorted := keyList_sorted dateLe (filterView df units lo hi) dateKey
    have hnd := keyList_nodup dateLe (filterView df units lo hi) dateKey
    refine (hsorted.and hnd).imp ?_
    rintro ⟨a1, a2⟩ ⟨b1, b2⟩ ⟨hle, hne⟩
    simp only [dateLe] at hle
    simp only [ne_eq, Prod.mk.injEq, not_and] at hne
    rcases hle with h | ⟨he, h2⟩
    · exact Or.inl h
    · subst he
      exact Or.inr ⟨rfl, lt_of_le_of_ne h2 (fun hc => hne rfl hc)⟩
  · intro p hp
    rw [monthlySeries, groupSums, List.mem_map] at hp
    obtain ⟨k, _, rfl⟩ := hp
    rfl

/-- Counterexample to C4 as stated: a one-row view (a single July record)
yields a seasonal-average table with a single entry, not 12. -/
theorem C4_seasonal_single_month_cex :
    (seasonalAverage (filterView sampleDf ["RMP"] 2023 2023)).length ≠ 12 := by
  decide

/-- Claim C4 (amended): the seasonal-average table has exactly one entry per
distinct month-number present in the view, in strictly ascending month order;
when all month-numbers lie in 1..12 it therefore has at most 12 entries. -/
theorem C4_seasonal_entries_amended (df : List Row) (units : List String) (lo hi : Int) :
    ((seasonalAverage (filterView df units lo hi)).map Prod.fst).Nodup ∧
    (∀ m, m ∈ (seasonalAverage (filterView df units lo hi)).map Prod.fst ↔
        ∃ r ∈ filterView df units lo hi, r.monthNum = m) ∧
    ((seasonalAverage (filterView df units lo hi)).map Prod.fst).Pairwise (· < ·) ∧
    ((∀ r ∈ filterView df units lo hi, 1 ≤ r.monthNum ∧ r.monthNum ≤ 12) →
      (seasonalAverage (filterView df units lo hi)).length ≤ 12) := by
  refine ⟨?_, ?_, ?_, ?_⟩
  · rw [seasonalAverage, groupMeans_map_fst]
    exact keyList_nodup _ _ _
  · intro m
    rw [seasonalAverage, groupMeans_map_fst]
    exact keyList_mem _ _ _ m
  · rw [seasonalAverage, groupMeans_map_fst]
    have hsorted := keyList_sorted (· ≤ ·) (filterView df units lo hi) (fun r => r.monthNum)
    have hnd := keyList_nodup (· ≤ ·) (filterView df units lo hi) (fun r => r.monthNum)
    refine (hsorted.and hnd).imp ?_
    rintro a b ⟨hle, hne⟩
    exact lt_of_le_of_ne hle hne
  · intro hbound
    have hlen : (seasonalAverage (filterView df units lo hi)).length =
        (keyList (· ≤ ·) (filterView df units lo hi) (fun r => r.monthNum)).length := by
      rw [seasonalAverage, groupMeans, List.length_map]
    rw [hlen]
    have hnd := keyList_nodup (K := Nat) (· ≤ ·) (filterView df units lo hi) (fun r => r.monthNum)
    have hsubset : keyList (· ≤ ·) (filterView df units lo hi) (fun r => r.monthNum) ⊆
        List.range' 1 12 := by
      intro m hm
      obtain ⟨r, hr, rfl⟩ := (keyList_mem _ _ _ m).mp hm
      obtain ⟨h1, h2⟩ := hbound r hr
      rw [List.mem_range']
      exact ⟨r.monthNum - 1, by omega, by omega⟩
    have := (List.subperm_of_subset hnd hsubset).length_le
    simpa using this

/-- Witness for C4 (amended) at a concrete selection: all month-numbers of
the sample are in range, so the table has at most 12 entries. -/
theorem C4_seasonal_entries_amended_witness :
    (seasonalAverage (filterView sampleDf ["DMP", "CMP"] 2021 2023)).length ≤ 12 :=
  (C4_seasonal_entries_amended sampleDf ["DMP", "CMP"] 2021 2023).2.2.2 (by decide)

/-- Claim C5: on a non-empty view the average-monthly metric equals the
arithmetic mean, over the distinct (year, month) pairs present in the view,
of the per-pair sums of total cases. -/
theorem C5_avg_monthly_mean (df : List Row) (units : List String) (lo hi : Int)
    (hne : filterView df units lo hi ≠ []) :
    avgMonthly (filterView df units lo hi) =
      some ((((((filterView df units lo hi).map ymKey).dedup.map
          (fun k => (((filterView df units lo hi).filter
              (fun r => decide (ymKey r = k))).map (fun r => r.totalCases)).sum)).sum : Nat) : ℚ) /
        (((((filterView df units lo hi).map ymKey).dedup).length : Nat) : ℚ)) := by
  set v := filterView df units lo hi with hv
  obtain ⟨r, hr⟩ := List.exists_mem_of_ne_nil v hne
  have hkmem : ymKey r ∈ keyList ymLe v ymKey := (keyList_mem ymLe v ymKey _).mpr ⟨r, hr, rfl⟩
  have hkne : keyList ymLe v ymKey ≠ [] := List.ne_nil_of_mem hkmem
  have hgne : monthlyGroupSums v ≠ [] := by
    rw [monthlyGroupSums, groupSums]
    exact fun hc => hkne (List.map_eq_nil_iff.mp hc)
  have hnotempty : ¬((monthlyGroupSums v).isEmpty = true) := by
    rw [List.isEmpty_iff]
    exact hgne
  rw [avgMonthly]
  simp only [if_neg hnotempty]
  have hperm : (keyList ymLe v ymKey).Perm ((v.map ymKey).dedup) := keyList_perm ymLe v ymKey
  have hsum : ((monthlyGroupSums v).map (fun p => p.2)).sum =
      (((v.map ymKey).dedup).map
        (fun k => ((v.filter (fun r => decide (ymKey r = k))).map
          (fun r => r.totalCases)).sum)).sum := by
    rw [monthlyGroupSums, groupSums, List.map_map]
    exact List.Perm.sum_eq (hperm.map _)
  have hlen : (monthlyGroupSums v).length = ((v.map ymKey).dedup).length := by
    rw [monthlyGroupSums, groupSums, List.length_map, keyList, List.length_insertionSort]
  rw [hsum, hlen]

/-- Witness for C5: the mean identity instantiated at a concrete non-empty
selection of the sample dataframe. -/
theorem C5_avg_monthly_mean_witness :
    avgMonthly (filterView sampleDf ["DMP", "CMP"] 2021 2022) =
      some ((((((filterView sampleDf ["DMP", "CMP"] 2021 2022).map ymKey).dedup.map
          (fun k => (((filterView sampleDf ["DMP", "CMP"] 2021 2022).filter
              (fun r => decide (ymKey r = k))).map (fun r => r.totalCases)).sum)).sum : Nat) : ℚ) /
        (((((filterView sampleDf ["DMP", "CMP"] 2021 2022).map ymKey).dedup).length : Nat) : ℚ)) :=
  C5_avg_monthly_mean sampleDf ["DMP", "CMP"] 2021 2022 (by decide)
